import Mathlib

/-!
A shallow embedding of the core object model of the Fornjot CAD kernel:
identity-addressed handles, the geometry layers keyed by (handle, context),
the half-edge reverse and surface transform operations, the
adjacent-half-edges-not-connected validation check, and the polyline
generation for lines.  Machine floats are modelled by real numbers; a fatal
unwrap on missing data is modelled by the Option monad (none = panic).
-/

namespace Fornjot

/-- A point in two-dimensional surface coordinates, with real numbers standing
in for the f64 scalars of fj-math (an external collaborator of the core). -/
structure Point2 where
  x : ℝ
  y : ℝ

/-- Componentwise difference of two surface points. -/
def Point2.sub (a b : Point2) : Point2 :=
  ⟨a.x - b.x, a.y - b.y⟩

/-- Euclidean magnitude of a 2D vector, as used by the validation check
(fj-math Vector::magnitude). -/
noncomputable def Point2.magnitude (v : Point2) : Real :=
  Real.sqrt (v.x ^ 2 + v.y ^ 2)

/-- A curve's path as embedded in a surface: a line in surface coordinates,
described by origin and direction (fj-math is assumed given; lines are the
representative path kind, as in geometry/curves/line.rs). -/
structure SurfacePath where
  origin : Point2
  direction : Point2

/-- Evaluation of a path at a 1D curve coordinate: origin + direction * t. -/
def SurfacePath.point_from_path_coords (p : SurfacePath) (t : Real) : Point2 :=
  ⟨p.origin.x + t * p.direction.x, p.origin.y + t * p.direction.y⟩

/-- Modelled from the spec: flipping a path's coordinate system (the fj-math
reverse of a line, used by ReverseCurveCoordinateSystems, whose implementing
module is not among the sampled sources).  The origin is kept and the
direction negated, so traversal direction is reversed. -/
def SurfacePath.reverse (p : SurfacePath) : SurfacePath :=
  ⟨p.origin, ⟨-p.direction.x, -p.direction.y⟩⟩

/-- An identity-addressed, cloneable reference to a stored object, after
experiments/2025-03-18/src/handle.rs: an Rc allocation, with the allocation
address made explicit as a natural number. -/
structure Handle (T : Type) where
  ptr : Nat
  value : T

/-- The allocator state backing Rc::new: the next fresh allocation address. -/
structure Alloc where
  next : Nat

/-- Handle::new — takes ownership of a value and fixes a permanent identity
(a fresh allocation address). -/
def Handle.new {T : Type} (inner : T) (a : Alloc) : Handle T × Alloc :=
  (⟨a.next, inner⟩, ⟨a.next + 1⟩)

/-- Clone for Handle — shares ownership: the clone refers to the same
allocation (same pointer), never a new identity. -/
def Handle.clone {T : Type} (h : Handle T) : Handle T :=
  ⟨h.ptr, h.value⟩

/-- PartialEq for Handle — Rc::ptr_eq: equality of the allocation addresses,
never structural comparison of the stored values. -/
def Handle.eq {T : Type} (a b : Handle T) : Bool :=
  a.ptr == b.ptr

/-- Ord for Handle — comparison of the allocation addresses. -/
def Handle.cmp {T : Type} (a b : Handle T) : Ordering :=
  compare a.ptr b.ptr

/-- A topological point; carries no coordinates itself. -/
structure Vertex

/-- An abstract 1-parameter locus; carries no embedding itself. -/
structure Curve

/-- An abstract 2-parameter locus; carries no embedding itself. -/
structure Surface

/-- A directed edge: references a curve and a start vertex.  The end vertex is
implicit (the start vertex of the next half-edge in the owning cycle). -/
structure HalfEdge where
  curve : Handle Curve
  start_vertex : Handle Vertex

/-- An ordered, cyclic sequence of half-edges forming a closed boundary. -/
structure Cycle where
  half_edges : List (Handle HalfEdge)

/-- One exterior cycle plus zero or more interior cycles (holes). -/
structure Region where
  exterior : Cycle
  interiors : List Cycle

/-- A region embedded in a surface. -/
structure Face where
  region : Region
  surface : Handle Surface

/-- One or more regions sharing a surface. -/
structure Sketch where
  regions : List Region
  surface : Handle Surface

/-- The 1D parameter (position) of a vertex on a specific curve. -/
structure LocalVertexGeom where
  position : Real

/-- The path of a curve as embedded in a specific surface. -/
structure LocalCurveGeom where
  path : SurfacePath

/-- Modelled from the spec: the global embedding of a surface — an external
math primitive (§6), a 2-parameter evaluation map into 3D space. -/
structure SurfaceGeometry where
  embedding : Real × Real → Real × Real × Real

/-- The new-style surface geometry record stored by define_surface_2, wrapping
the embedding (the Arc is transparent in the model). -/
structure SurfaceGeom where
  geometry : SurfaceGeometry

/-- Modelled from the spec: a rigid or affine transform — an external math
collaborator, acting pointwise on embedded 3D points. -/
structure Transform where
  map : Real × Real × Real → Real × Real × Real

/-- Applying a transform to a surface geometry: the embedding is mapped
through the transform (external math, assumed given). -/
def SurfaceGeometry.transform (g : SurfaceGeometry) (t : Transform) : SurfaceGeometry :=
  ⟨fun uv => t.map (g.embedding uv)⟩

/-- Modelled from the spec: the geometry layers (§4.2) — per-object,
per-context geometric definitions, stored independently from topology.
Entries are keyed by the identity pointers of the handles; a define call
prepends, so the most recent definition for a key shadows older ones
(upsert semantics). -/
structure Geometry where
  vertex_entries : List ((Nat × Nat) × LocalVertexGeom)
  curve_entries : List ((Nat × Nat) × LocalCurveGeom)
  surface_entries : List (Nat × SurfaceGeometry)
  surface_entries_2 : List (Nat × SurfaceGeom)

/-- Modelled from the spec: define_vertex — upserts the vertex's local
position on a curve, keyed by the (vertex, curve) identity pair. -/
def Geometry.define_vertex (g : Geometry) (v : Handle Vertex) (c : Handle Curve)
    (geom : LocalVertexGeom) : Geometry :=
  { g with vertex_entries := ((v.ptr, c.ptr), geom) :: g.vertex_entries }

/-- Modelled from the spec: define_curve — upserts a curve's path as embedded
in a surface. -/
def Geometry.define_curve (g : Geometry) (c : Handle Curve) (s : Handle Surface)
    (geom : LocalCurveGeom) : Geometry :=
  { g with curve_entries := ((c.ptr, s.ptr), geom) :: g.curve_entries }

/-- Modelled from the spec: define_surface — upserts a surface's global
embedding (legacy layer). -/
def Geometry.define_surface (g : Geometry) (s : Handle Surface)
    (geom : SurfaceGeometry) : Geometry :=
  { g with surface_entries := (s.ptr, geom) :: g.surface_entries }

/-- Modelled from the spec: define_surface_2 — upserts a surface's global
embedding (new-style layer). -/
def Geometry.define_surface_2 (g : Geometry) (s : Handle Surface)
    (geom : SurfaceGeom) : Geometry :=
  { g with surface_entries_2 := (s.ptr, geom) :: g.surface_entries_2 }

/-- The contextual definitions a handle has in a keyed layer: the ordered list
of (context pointer, definition) entries for it. -/
def row_of {α : Type} (entries : List ((Nat × Nat) × α)) (p : Nat) : List (Nat × α) :=
  entries.filterMap (fun e => if e.1.1 = p then some (e.1.2, e.2) else none)

/-- Modelled from the spec: of_vertex — the full set of contextual definitions
of a vertex, or a fatal absence (None) when the vertex has no geometry in any
context (§4.2 failure semantics). -/
def Geometry.of_vertex (g : Geometry) (v : Handle Vertex) :
    Option (List (Nat × LocalVertexGeom)) :=
  if (row_of g.vertex_entries v.ptr).isEmpty then none
  else some (row_of g.vertex_entries v.ptr)

/-- Modelled from the spec: of_curve — the full set of contextual definitions
of a curve, or a fatal absence (None) when the curve has no geometry in any
context. -/
def Geometry.of_curve (g : Geometry) (c : Handle Curve) :
    Option (List (Nat × LocalCurveGeom)) :=
  if (row_of g.curve_entries c.ptr).isEmpty then none
  else some (row_of g.curve_entries c.ptr)

/-- Modelled from the spec: of_surface — a surface's global embedding; absence
is a programmer error (fatal), modelled as None. -/
def Geometry.of_surface (g : Geometry) (s : Handle Surface) : Option SurfaceGeometry :=
  (List.find? (fun e => e.1 == s.ptr) g.surface_entries).map Prod.snd

/-- Modelled from the spec: local_on — the optional local definition for one
specific context; absence is a normal, recoverable result. -/
def local_on {α : Type} (row : List (Nat × α)) (ctx : Nat) : Option α :=
  (List.find? (fun e => e.1 == ctx) row).map Prod.snd

/-- The compound lookup of_vertex(v).unwrap().local_on(c).unwrap() as it
appears throughout the source: None models the panic of either unwrap. -/
def vertex_local (g : Geometry) (v : Handle Vertex) (c : Handle Curve) :
    Option LocalVertexGeom :=
  (g.of_vertex v).bind (fun row => local_on row c.ptr)

/-- The compound lookup of_curve(c).unwrap().local_on(s) with the outer unwrap
fatal: None models the panic of the of_curve unwrap or an absent context. -/
def curve_local (g : Geometry) (c : Handle Curve) (s : Handle Surface) :
    Option LocalCurveGeom :=
  (g.of_curve c).bind (fun row => local_on row s.ptr)

/-- The working context: allocator, geometry layers, and the provenance links
recorded by derive_from. -/
structure Core where
  alloc : Alloc
  geometry : Geometry
  provenance : List (Nat × Nat)

/-- Insert — stores a newly constructed topology value and returns its handle;
pure allocation, no geometry side effect. -/
def Core.insert {T : Type} (v : T) (core : Core) : Handle T × Core :=
  (⟨core.alloc.next, v⟩, { core with alloc := ⟨core.alloc.next + 1⟩ })

/-- derive_from — attaches provenance (new object derived from old) for
diagnostics; alters neither identity nor geometry. -/
def derive_from {T : Type} (h : Handle T) (src : Handle T) (core : Core) :
    Handle T × Core :=
  (h, { core with provenance := (h.ptr, src.ptr) :: core.provenance })

/-- Modelled from the spec: ReverseCurveCoordinateSystems for a (curve,
surface) pair (its implementing module is not among the sampled sources).
Per §4.3 it produces a new curve — inserted, derived from the old one — whose
coordinate system on the given surface is flipped: the new curve's path on
the surface is the reverse of the old curve's path there.  Reading the old
path is a fatal unwrap when absent. -/
def reverse_curve (c : Handle Curve) (surface : Handle Surface) (core : Core) :
    Option (Handle Curve × Core) := do
  let curve_geom ← curve_local core.geometry c surface
  let (curve_reversed, core) := Core.insert Curve.mk core
  let (curve_reversed, core) := derive_from curve_reversed c core
  let core := { core with
    geometry := core.geometry.define_curve (Handle.clone curve_reversed)
      (Handle.clone surface) ⟨curve_geom.path.reverse⟩ }
  some (curve_reversed, core)

/-- ReverseCurveCoordinateSystems for (half-edge, end-vertex, surface), after
operations/reverse/half_edge.rs: read both vertices' local positions on the
old curve, reverse the curve, insert a new half-edge with the same start
vertex, then write the swapped positions on the new curve. -/
def reverse_curve_coordinate_systems (half_edge : Handle HalfEdge)
    (end_vertex : Handle Vertex) (surface : Handle Surface) (core : Core) :
    Option (Handle HalfEdge × Core) := do
  let vertex_geom_start ←
    vertex_local core.geometry half_edge.value.start_vertex half_edge.value.curve
  let vertex_geom_end ←
    vertex_local core.geometry end_vertex half_edge.value.curve
  let (curve, core) ← reverse_curve half_edge.value.curve surface core
  let (half_edge_2, core) :=
    Core.insert (HalfEdge.mk curve (Handle.clone half_edge.value.start_vertex)) core
  let (half_edge_2, core) := derive_from half_edge_2 half_edge core
  let core := { core with
    geometry := core.geometry.define_vertex
      (Handle.clone half_edge_2.value.start_vertex)
      (Handle.clone half_edge_2.value.curve) vertex_geom_end }
  let core := { core with
    geometry := core.geometry.define_vertex (Handle.clone end_vertex)
      (Handle.clone half_edge_2.value.curve) vertex_geom_start }
  some (half_edge_2, core)

/-- The per-invocation transform cache, keyed by the identity of the source
handle (std HashMap entry semantics). -/
abbrev TransformCache : Type :=
  List (Nat × Handle Surface)

/-- TransformObject for a surface handle, after operations/transform/surface.rs:
on a cache hit return a clone of the cached transformed handle; otherwise
insert a fresh surface, transform the source's geometry, define it in both
surface layers, record the new handle in the cache, and return a clone. -/
def transform_with_cache (self : Handle Surface) (transform : Transform)
    (core : Core) (cache : TransformCache) :
    Option (Handle Surface × Core × TransformCache) :=
  match List.find? (fun e => e.1 == self.ptr) cache with
  | some e => some (Handle.clone e.2, core, cache)
  | none => do
      let (surface, core) := Core.insert Surface.mk core
      let geom ← core.geometry.of_surface self
      let geometry := geom.transform transform
      let core := { core with
        geometry := core.geometry.define_surface (Handle.clone surface) geometry }
      let core := { core with
        geometry := core.geometry.define_surface_2 (Handle.clone surface) ⟨geometry⟩ }
      some (Handle.clone surface, core, (self.ptr, surface) :: cache)

/-- The validation configuration: the named numeric tolerances, notably the
maximum distance at which two positions still count as the same point. -/
structure ValidationConfig where
  identical_max_distance : Real

/-- The structured error emitted by the adjacent-half-edges-not-connected
check, after validation/checks/half_edge_connection.rs. -/
structure AdjacentHalfEdgesNotConnected where
  end_pos_of_first_half_edge : Point2
  start_pos_of_second_half_edge : Point2
  distance_between_positions : Real
  unconnected_half_edges : Handle HalfEdge × Handle HalfEdge

/-- Modelled from the spec: the adjacent-pairs iteration over a cycle's
half-edges (HalfEdgesOfCycle::pairs, not among the sampled sources).  Per
§8/§9 it wraps around — the last half-edge is paired with the first — so a
closed loop is fully checked. -/
def pairs {α : Type} : List α → List (α × α)
  | [] => []
  | x :: xs => (x :: xs).zip (xs ++ [x])

/-- Sequencing of an Option-producing step over a list: the strict analogue of
driving a panicking iterator to completion (None = some step panicked). -/
def traverseOption {α β : Type} (f : α → Option β) : List α → Option (List β)
  | [] => some []
  | x :: xs =>
    match f x with
    | none => none
    | some y => (traverseOption f xs).map (fun ys => y :: ys)

/-- The body of check_cycle's filter_map closure for one adjacent pair
(first, second).  The outer Option models the fatal unwraps; the inner Option
is the filter_map result (None = no error for this pair).  The unwrapped
lookups are: the shared vertex's position on first's curve, first's curve on
the surface, second's curve's context row, and the shared vertex's position
on second's curve; only the lookup of second's curve on the surface is
recoverable (the let-else skip). -/
noncomputable def check_pair (surface : Handle Surface) (geometry : Geometry)
    (config : ValidationConfig) (first second : Handle HalfEdge) :
    Option (Option AdjacentHalfEdgesNotConnected) := do
  let endv ← vertex_local geometry second.value.start_vertex first.value.curve
  let cg1 ← curve_local geometry first.value.curve surface
  let end_pos_of_first_half_edge := cg1.path.point_from_path_coords endv.position
  let crow2 ← geometry.of_curve second.value.curve
  match local_on crow2 surface.ptr with
  | none => some none
  | some local_curve_geometry => do
    let point_curve ←
      vertex_local geometry second.value.start_vertex second.value.curve
    let start_pos_of_second_half_edge :=
      local_curve_geometry.path.point_from_path_coords point_curve.position
    let distance_between_positions :=
      (end_pos_of_first_half_edge.sub start_pos_of_second_half_edge).magnitude
    if distance_between_positions > config.identical_max_distance then
      some (some ⟨end_pos_of_first_half_edge, start_pos_of_second_half_edge,
        distance_between_positions, (Handle.clone first, Handle.clone second)⟩)
    else
      some none

/-- check_cycle, after validation/checks/half_edge_connection.rs: filter_map
of the pair check over the cycle's adjacent half-edge pairs. -/
noncomputable def check_cycle (cycle : Cycle) (surface : Handle Surface)
    (geometry : Geometry) (config : ValidationConfig) :
    Option (List AdjacentHalfEdgesNotConnected) :=
  (traverseOption (fun p => check_pair surface geometry config p.1 p.2)
    (pairs cycle.half_edges)).map (List.filterMap id)

/-- check_region: the exterior cycle chained with the interiors, flat-mapped
through check_cycle. -/
noncomputable def check_region (region : Region) (surface : Handle Surface)
    (geometry : Geometry) (config : ValidationConfig) :
    Option (List AdjacentHalfEdgesNotConnected) :=
  (traverseOption (fun cycle => check_cycle cycle surface geometry config)
    (region.exterior :: region.interiors)).map List.flatten

/-- ValidationCheck of a Face: check its one region against its surface. -/
noncomputable def check_face (object : Face) (geometry : Geometry)
    (config : ValidationConfig) : Option (List AdjacentHalfEdgesNotConnected) :=
  check_region object.region object.surface geometry config

/-- ValidationCheck of a Sketch: every region is checked against the shared
surface, and the findings are concatenated. -/
noncomputable def check_sketch (object : Sketch) (geometry : Geometry)
    (config : ValidationConfig) : Option (List AdjacentHalfEdgesNotConnected) :=
  (traverseOption (fun region => check_region region object.surface geometry config)
    object.regions).map List.flatten

/-- A line in D-dimensional space, after fj-math Line: origin and direction. -/
structure Line (D : Nat) where
  origin : Fin D → Real
  direction : Fin D → Real

/-- A line segment, after fj-math LineSegment: two endpoints in D-dimensional
space plus the two line-local 1D coordinates they come from. -/
structure LineSegment (D : Nat) where
  points : (Fin D → Real) × (Fin D → Real)
  points_line : Real × Real

/-- An approximation tolerance (a validated positive scalar; its value is
irrelevant to lines). -/
structure Tolerance where
  inner : Real

/-- A curve boundary: the two 1D curve points bounding a curve segment. -/
structure CurveBoundary where
  inner : Real × Real

/-- GenPolyline::line_segment_at for Line, after geometry/curves/line.rs:
collapses the segment into the single point origin + direction * t, with both
line-local coordinates equal to the input, ignoring the tolerance. -/
def line_segment_at {D : Nat} (l : Line D) (point_curve : Real) (_ : Tolerance) :
    LineSegment D :=
  let point := fun i => l.origin i + l.direction i * point_curve
  { points := (point, point), points_line := (point_curve, point_curve) }

/-- GenPolyline::generate_polyline for Line, after geometry/curves/line.rs:
exactly the boundary's two points, ignoring the tolerance. -/
def generate_polyline {D : Nat} (_ : Line D) (boundary : CurveBoundary)
    (_ : Tolerance) : List Real :=
  [boundary.inner.1, boundary.inner.2]

/-! Basic facts about handles and the geometry layers. -/

/-- Cloning a handle yields the handle itself in the model: same pointer, same
shared value. -/
theorem Handle.clone_eq {T : Type} (h : Handle T) : Handle.clone h = h :=
  rfl

theorem row_of_cons {α : Type} (entries : List ((Nat × Nat) × α)) (k : Nat × Nat)
    (x : α) (p : Nat) :
    row_of ((k, x) :: entries) p =
      if k.1 = p then (k.2, x) :: row_of entries p else row_of entries p := by
  by_cases h : k.1 = p <;> simp [row_of, List.filterMap_cons, h]

theorem local_on_cons {α : Type} (row : List (Nat × α)) (c : Nat) (x : α)
    (ctx : Nat) :
    local_on ((c, x) :: row) ctx =
      if c = ctx then some x else local_on row ctx := by
  by_cases h : c = ctx <;> simp [local_on, List.find?_cons, h]

/-- The vertex layer lookup only depends on a handle through its identity. -/
theorem vertex_local_ptr_congr (g : Geometry) (v w : Handle Vertex)
    (c : Handle Curve) (h : v.ptr = w.ptr) :
    vertex_local g v c = vertex_local g w c := by
  unfold vertex_local Geometry.of_vertex
  rw [h]

/-- Reading the vertex layer after define_vertex: the defined (vertex, curve)
identity pair now maps to the new definition, and every other pair is
unaffected. -/
theorem vertex_local_define (g : Geometry) (v : Handle Vertex) (c : Handle Curve)
    (geom : LocalVertexGeom) (v2 : Handle Vertex) (c2 : Handle Curve) :
    vertex_local (g.define_vertex v c geom) v2 c2 =
      if v2.ptr = v.ptr ∧ c2.ptr = c.ptr then some geom
      else vertex_local g v2 c2 := by
  unfold vertex_local Geometry.of_vertex Geometry.define_vertex
  by_cases hv : v2.ptr = v.ptr
  · simp only [hv, true_and]
    have hrow : row_of (((v.ptr, c.ptr), geom) :: g.vertex_entries) v.ptr =
        (c.ptr, geom) :: row_of g.vertex_entries v.ptr := by
      rw [row_of_cons, if_pos rfl]
    rw [hrow]
    simp only [List.isEmpty_cons, Bool.false_eq_true, if_false, Option.some_bind,
      local_on_cons]
    by_cases hcc : c.ptr = c2.ptr
    · rw [if_pos hcc, if_pos hcc.symm]
    · rw [if_neg hcc, if_neg (fun h => hcc h.symm)]
      cases hemp : (row_of g.vertex_entries v.ptr).isEmpty
      · simp only [Bool.false_eq_true, if_false, Option.some_bind]
      · rw [List.isEmpty_iff] at hemp
        simp [hemp, local_on]
  · have hrow : row_of (((v.ptr, c.ptr), geom) :: g.vertex_entries) v2.ptr =
        row_of g.vertex_entries v2.ptr := by
      rw [row_of_cons, if_neg (fun h => hv h.symm)]
    rw [hrow, if_neg (fun h => hv (And.left h))]

/-- The curve layer lookup only depends on handles through their identity. -/
theorem curve_local_ptr_congr (g : Geometry) (c d : Handle Curve)
    (s : Handle Surface) (h : c.ptr = d.ptr) :
    curve_local g c s = curve_local g d s := by
  unfold curve_local Geometry.of_curve
  rw [h]

/-- Reading the curve layer after define_curve: the defined (curve, surface)
identity pair now maps to the new definition, every other pair is
unaffected. -/
theorem curve_local_define (g : Geometry) (c : Handle Curve) (s : Handle Surface)
    (geom : LocalCurveGeom) (c2 : Handle Curve) (s2 : Handle Surface) :
    curve_local (g.define_curve c s geom) c2 s2 =
      if c2.ptr = c.ptr ∧ s2.ptr = s.ptr then some geom
      else curve_local g c2 s2 := by
  unfold curve_local Geometry.of_curve Geometry.define_curve
  by_cases hc : c2.ptr = c.ptr
  · simp only [hc, true_and]
    have hrow : row_of (((c.ptr, s.ptr), geom) :: g.curve_entries) c.ptr =
        (s.ptr, geom) :: row_of g.curve_entries c.ptr := by
      rw [row_of_cons, if_pos rfl]
    rw [hrow]
    simp only [List.isEmpty_cons, Bool.false_eq_true, if_false, Option.some_bind,
      local_on_cons]
    by_cases hss : s.ptr = s2.ptr
    · rw [if_pos hss, if_pos hss.symm]
    · rw [if_neg hss, if_neg (fun h => hss h.symm)]
      cases hemp : (row_of g.curve_entries c.ptr).isEmpty
      · simp only [Bool.false_eq_true, if_false, Option.some_bind]
      · rw [List.isEmpty_iff] at hemp
        simp [hemp, local_on]
  · have hrow : row_of (((c.ptr, s.ptr), geom) :: g.curve_entries) c2.ptr =
        row_of g.curve_entries c2.ptr := by
      rw [row_of_cons, if_neg (fun h => hc h.symm)]
    rw [hrow, if_neg (fun h => hc (And.left h))]

/-- Writes to the curve layer do not affect vertex lookups. -/
theorem vertex_local_define_curve (g : Geometry) (c : Handle Curve)
    (s : Handle Surface) (x : LocalCurveGeom) (v : Handle Vertex)
    (c2 : Handle Curve) :
    vertex_local (g.define_curve c s x) v c2 = vertex_local g v c2 :=
  rfl

/-- Writes to the vertex layer do not affect curve lookups. -/
theorem curve_local_define_vertex (g : Geometry) (v : Handle Vertex)
    (c : Handle Curve) (x : LocalVertexGeom) (c2 : Handle Curve)
    (s2 : Handle Surface) :
    curve_local (g.define_vertex v c x) c2 s2 = curve_local g c2 s2 :=
  rfl

/-- C3: for any two handles produced by two separate Handle::new calls —
the second allocated from the state the first left behind — the handles are
unequal even when the stored values are structurally identical; and a clone
of any handle equals that handle.  Equality is identity of the underlying
storage slot, never structural. -/
theorem handle_identity_equality (T : Type) (v v' : T) (a : Alloc) :
    Handle.eq (Handle.new v a).1 (Handle.new v' (Handle.new v a).2).1 = false
    ∧ ∀ h : Handle T, Handle.eq (Handle.clone h) h = true := by
  constructor
  · simp [Handle.new, Handle.eq]
  · intro h
    simp [Handle.clone, Handle.eq]

/-- C10: for every line and 1D curve point, line_segment_at returns a
degenerate segment collapsed to the single point origin + direction * t, with
both line-local coordinates equal to the input point, regardless of the
tolerance; and generate_polyline returns exactly the boundary's two points,
independent of the tolerance. -/
theorem line_segment_at_degenerate (D : Nat) (l : Line D) (t : Real)
    (tol tol' : Tolerance) (b : CurveBoundary) :
    (line_segment_at l t tol).points.1 = (fun i => l.origin i + l.direction i * t)
    ∧ (line_segment_at l t tol).points.2 = (fun i => l.origin i + l.direction i * t)
    ∧ (line_segment_at l t tol).points_line = (t, t)
    ∧ line_segment_at l t tol = line_segment_at l t tol'
    ∧ generate_polyline l b tol = [b.inner.1, b.inner.2]
    ∧ generate_polyline l b tol = generate_polyline l b tol' :=
  ⟨rfl, rfl, rfl, rfl, rfl, rfl⟩

/-- The full postcondition of one Reverse run on a half-edge: it succeeds,
the new half-edge keeps the start vertex handle, the two local positions on
the new curve are the swapped pre-reversal positions, and the new curve's
path on the surface is the reverse of the old one. -/
theorem reverse_run_spec
    (core : Core) (half_edge : Handle HalfEdge) (end_vertex : Handle Vertex)
    (surface : Handle Surface) (s e : LocalVertexGeom) (cg : LocalCurveGeom)
    (hs : vertex_local core.geometry half_edge.value.start_vertex
      half_edge.value.curve = some s)
    (hev : vertex_local core.geometry end_vertex half_edge.value.curve = some e)
    (hc : curve_local core.geometry half_edge.value.curve surface = some cg) :
    (∃ r, reverse_curve_coordinate_systems half_edge end_vertex surface core =
      some r)
    ∧ ∀ he2 core2,
        reverse_curve_coordinate_systems half_edge end_vertex surface core =
          some (he2, core2) →
        he2.value.start_vertex = half_edge.value.start_vertex
        ∧ vertex_local core2.geometry he2.value.start_vertex he2.value.curve = some e
        ∧ vertex_local core2.geometry end_vertex he2.value.curve = some s
        ∧ curve_local core2.geometry he2.value.curve surface =
            some ⟨cg.path.reverse⟩ := by
  constructor
  · unfold reverse_curve_coordinate_systems reverse_curve
    rw [hs]
    simp only [Option.bind_eq_bind, Option.some_bind]
    rw [hev]
    simp only [Option.bind_eq_bind, Option.some_bind]
    rw [hc]
    simp only [Option.bind_eq_bind, Option.some_bind]
    exact ⟨_, rfl⟩
  · intro he2 core2 hrun
    unfold reverse_curve_coordinate_systems reverse_curve at hrun
    rw [hs] at hrun
    simp only [Option.bind_eq_bind, Option.some_bind] at hrun
    rw [hev] at hrun
    simp only [Option.bind_eq_bind, Option.some_bind] at hrun
    rw [hc] at hrun
    simp only [Option.bind_eq_bind, Option.some_bind, Core.insert, derive_from, Handle.clone_eq,
      Option.some.injEq, Prod.mk.injEq] at hrun
    obtain ⟨h1, h2⟩ := hrun
    subst h1
    subst h2
    refine ⟨rfl, ?_, ?_, ?_⟩
    · simp only [Handle.clone_eq, vertex_local_define, vertex_local_define_curve]
      by_cases hsp : half_edge.value.start_vertex.ptr = end_vertex.ptr
      · have hse : s = e := by
          have hcg := vertex_local_ptr_congr core.geometry
            half_edge.value.start_vertex end_vertex half_edge.value.curve hsp
          rw [hs, hev] at hcg
          exact Option.some.inj hcg
        simp [hsp, hse]
      · simp [hsp]
    · simp only [Handle.clone_eq, vertex_local_define, vertex_local_define_curve]
      simp
    · simp only [Handle.clone_eq, curve_local_define_vertex, curve_local_define]
      simp

/-- C1: applying Reverse to a (half-edge, end-vertex, surface) triple with
defined local vertex geometry returns a new half-edge whose start vertex is
the identical handle of the original's start vertex, and afterwards the
geometry layer maps the start vertex's local position on the new curve to the
end vertex's former local position on the old curve, and the end vertex's
local position on the new curve to the start vertex's former local position
on the old curve.  Both former positions are the ones read from the
pre-reversal geometry (the reads happen before the curve is reversed and
before either write). -/
theorem reverse_half_edge_swaps_local_positions
    (core : Core) (half_edge : Handle HalfEdge) (end_vertex : Handle Vertex)
    (surface : Handle Surface) (s e : LocalVertexGeom) (cg : LocalCurveGeom)
    (hs : vertex_local core.geometry half_edge.value.start_vertex
      half_edge.value.curve = some s)
    (hev : vertex_local core.geometry end_vertex half_edge.value.curve = some e)
    (hc : curve_local core.geometry half_edge.value.curve surface = some cg) :
    (∃ r, reverse_curve_coordinate_systems half_edge end_vertex surface core =
      some r)
    ∧ ∀ he2 core2,
        reverse_curve_coordinate_systems half_edge end_vertex surface core =
          some (he2, core2) →
        he2.value.start_vertex = half_edge.value.start_vertex
        ∧ vertex_local core2.geometry he2.value.start_vertex he2.value.curve = some e
        ∧ vertex_local core2.geometry end_vertex he2.value.curve = some s := by
  obtain ⟨hex, hpost⟩ :=
    reverse_run_spec core half_edge end_vertex surface s e cg hs hev hc
  refine ⟨hex, ?_⟩
  intro he2 core2 hrun
  obtain ⟨hsv, hvs, hve, _⟩ := hpost he2 core2 hrun
  exact ⟨hsv, hvs, hve⟩

/-! Concrete fixtures used to exercise the theorems on explicit inputs. -/

/-- A concrete geometry layer state: vertices with pointers 0 and 1 sit at
curve coordinates 0 and 1 of the curve with pointer 2, which runs along the
x-axis of the surface with pointer 3. -/
def sample_geometry : Geometry :=
  ⟨[((0, 2), ⟨0⟩), ((1, 2), ⟨1⟩)], [((2, 3), ⟨⟨⟨0, 0⟩, ⟨1, 0⟩⟩⟩)], [], []⟩

/-- A concrete working context around sample_geometry. -/
def sample_core : Core :=
  ⟨⟨5⟩, sample_geometry, []⟩

/-- A concrete half-edge (pointer 4) on curve 2 starting at vertex 0. -/
def sample_half_edge : Handle HalfEdge :=
  ⟨4, ⟨⟨2, ⟨⟩⟩, ⟨0, ⟨⟩⟩⟩⟩

/-- The concrete end vertex (pointer 1). -/
def sample_end_vertex : Handle Vertex :=
  ⟨1, ⟨⟩⟩

/-- The concrete surface (pointer 3). -/
def sample_surface : Handle Surface :=
  ⟨3, ⟨⟩⟩

/-- Witness: the reverse theorem applied to the concrete sample context, where
the start vertex sits at curve coordinate 0 and the end vertex at 1. -/
theorem reverse_half_edge_swaps_local_positions_witness :
    (∃ r, reverse_curve_coordinate_systems sample_half_edge sample_end_vertex
      sample_surface sample_core = some r)
    ∧ ∀ he2 core2,
        reverse_curve_coordinate_systems sample_half_edge sample_end_vertex
          sample_surface sample_core = some (he2, core2) →
        he2.value.start_vertex = sample_half_edge.value.start_vertex
        ∧ vertex_local core2.geometry he2.value.start_vertex he2.value.curve =
            some ⟨1⟩
        ∧ vertex_local core2.geometry sample_end_vertex he2.value.curve =
            some ⟨0⟩ :=
  reverse_half_edge_swaps_local_positions sample_core sample_half_edge
    sample_end_vertex sample_surface ⟨0⟩ ⟨1⟩ ⟨⟨⟨0, 0⟩, ⟨1, 0⟩⟩⟩ rfl rfl rfl

/-- C2: within one transform invocation's cache, a second request to
transform the same source surface handle returns the identical transformed
handle — pointer-identical, with the working context and the cache unchanged
— and the cache maps the source's identity to exactly that handle, so a
surface referenced from two distinct paths yields exactly one transformed
copy. -/
theorem transform_with_cache_memoizes
    (self : Handle Surface) (transform : Transform) (core : Core)
    (cache : TransformCache) (h1 : Handle Surface) (core1 : Core)
    (cache1 : TransformCache)
    (hrun : transform_with_cache self transform core cache =
      some (h1, core1, cache1)) :
    transform_with_cache self transform core1 cache1 = some (h1, core1, cache1)
    ∧ List.find? (fun e => e.1 == self.ptr) cache1 = some (self.ptr, h1) := by
  unfold transform_with_cache at hrun ⊢
  cases hfind : List.find? (fun e => e.1 == self.ptr) cache with
  | some entry =>
    rw [hfind] at hrun
    simp only [Handle.clone_eq, Option.some.injEq, Prod.mk.injEq] at hrun
    obtain ⟨rfl, rfl, rfl⟩ := hrun
    have hp : entry.1 = self.ptr := by
      have := List.find?_some hfind
      simpa using this
    constructor
    · rw [hfind]
      rfl
    · rw [hfind, ← hp]
  | none =>
    rw [hfind] at hrun
    simp only [Core.insert] at hrun
    cases hof : Geometry.of_surface core.geometry self with
    | none =>
      rw [hof] at hrun
      simp at hrun
    | some geom =>
      rw [hof] at hrun
      simp only [Option.bind_eq_bind, Option.some_bind, Handle.clone_eq,
        Option.some.injEq, Prod.mk.injEq] at hrun
      obtain ⟨rfl, rfl, rfl⟩ := hrun
      constructor
      · simp [List.find?_cons, Handle.clone_eq]
      · simp [List.find?_cons]

/-- A concrete surface geometry to transform: the xy-plane embedding. -/
def sample_surface_geometry : SurfaceGeometry :=
  ⟨fun uv => (uv.1, uv.2, 0)⟩

/-- A concrete working context whose geometry defines the embedding of the
surface with pointer 3. -/
def sample_core_for_transform : Core :=
  ⟨⟨5⟩, ⟨[], [], [(3, sample_surface_geometry)], []⟩, []⟩

/-- A concrete transform (the identity map). -/
def ident_transform : Transform :=
  ⟨fun p => p⟩

/-- The transformed sample geometry. -/
def transformed_sample_geometry : SurfaceGeometry :=
  SurfaceGeometry.transform sample_surface_geometry ident_transform

/-- The working context after the first transform call on the sample. -/
def core_after_transform : Core :=
  ⟨⟨6⟩, ⟨[], [], [(5, transformed_sample_geometry), (3, sample_surface_geometry)],
    [(5, ⟨transformed_sample_geometry⟩)]⟩, []⟩

/-- The cache after the first transform call on the sample. -/
def cache_after_transform : TransformCache :=
  [(3, ⟨5, ⟨⟩⟩)]

/-- Witness: the memoization theorem applied to a concrete first transform
call on the sample surface. -/
theorem transform_with_cache_memoizes_witness :
    transform_with_cache ⟨3, ⟨⟩⟩ ident_transform core_after_transform
      cache_after_transform = some (⟨5, ⟨⟩⟩, core_after_transform,
        cache_after_transform)
    ∧ List.find? (fun e => e.1 == (⟨3, ⟨⟩⟩ : Handle Surface).ptr)
        cache_after_transform = some ((⟨3, ⟨⟩⟩ : Handle Surface).ptr, ⟨5, ⟨⟩⟩) :=
  transform_with_cache_memoizes ⟨3, ⟨⟩⟩ ident_transform
    sample_core_for_transform [] ⟨5, ⟨⟩⟩ core_after_transform
    cache_after_transform rfl

/-! Evaluation lemmas for the pair check. -/

/-- When all four local lookups are defined, the pair check reduces to the
tolerance comparison on the distance between the two mapped positions. -/
theorem check_pair_eval (surface : Handle Surface) (g : Geometry)
    (config : ValidationConfig) (first second : Handle HalfEdge)
    (endv : LocalVertexGeom) (cg1 : LocalCurveGeom)
    (crow2 : List (Nat × LocalCurveGeom)) (cg2 : LocalCurveGeom)
    (pc : LocalVertexGeom)
    (hv : vertex_local g second.value.start_vertex first.value.curve = some endv)
    (hc1 : curve_local g first.value.curve surface = some cg1)
    (hrow2 : g.of_curve second.value.curve = some crow2)
    (hc2 : local_on crow2 surface.ptr = some cg2)
    (hv2 : vertex_local g second.value.start_vertex second.value.curve = some pc) :
    check_pair surface g config first second =
      some (if ((cg1.path.point_from_path_coords endv.position).sub
            (cg2.path.point_from_path_coords pc.position)).magnitude >
            config.identical_max_distance
        then some ⟨cg1.path.point_from_path_coords endv.position,
          cg2.path.point_from_path_coords pc.position,
          ((cg1.path.point_from_path_coords endv.position).sub
            (cg2.path.point_from_path_coords pc.position)).magnitude,
          (first, second)⟩
        else none) := by
  unfold check_pair
  rw [hv]
  simp only [Option.bind_eq_bind, Option.some_bind]
  rw [hc1]
  simp only [Option.some_bind]
  rw [hrow2]
  simp only [Option.some_bind]
  rw [hc2]
  simp only [hv2, Option.some_bind, Handle.clone_eq]
  split <;> rfl

/-- When the second half-edge's curve has a context row but no local embedding
on the checked surface, the pair check skips the pair: no error, no panic. -/
theorem check_pair_skip (surface : Handle Surface) (g : Geometry)
    (config : ValidationConfig) (first second : Handle HalfEdge)
    (endv : LocalVertexGeom) (cg1 : LocalCurveGeom)
    (crow2 : List (Nat × LocalCurveGeom))
    (hv : vertex_local g second.value.start_vertex first.value.curve = some endv)
    (hc1 : curve_local g first.value.curve surface = some cg1)
    (hrow2 : g.of_curve second.value.curve = some crow2)
    (hc2 : local_on crow2 surface.ptr = none) :
    check_pair surface g config first second = some none := by
  unfold check_pair
  rw [hv]
  simp only [Option.bind_eq_bind, Option.some_bind]
  rw [hc1]
  simp only [Option.some_bind]
  rw [hrow2]
  simp only [Option.some_bind]
  rw [hc2]

/-- C4: a checked adjacent pair is classified as disconnected — an error is
emitted — exactly when the distance between the two mapped positions is
strictly greater than the configured identical_max_distance; a mismatch of
exactly the tolerance is classified as connected (no error). -/
theorem connectivity_check_strict_tolerance (surface : Handle Surface)
    (g : Geometry) (config : ValidationConfig) (first second : Handle HalfEdge)
    (endv : LocalVertexGeom) (cg1 : LocalCurveGeom)
    (crow2 : List (Nat × LocalCurveGeom)) (cg2 : LocalCurveGeom)
    (pc : LocalVertexGeom)
    (hv : vertex_local g second.value.start_vertex first.value.curve = some endv)
    (hc1 : curve_local g first.value.curve surface = some cg1)
    (hrow2 : g.of_curve second.value.curve = some crow2)
    (hc2 : local_on crow2 surface.ptr = some cg2)
    (hv2 : vertex_local g second.value.start_vertex second.value.curve = some pc) :
    ((∃ err, check_pair surface g config first second = some (some err)) ↔
      ((cg1.path.point_from_path_coords endv.position).sub
        (cg2.path.point_from_path_coords pc.position)).magnitude >
        config.identical_max_distance)
    ∧ (((cg1.path.point_from_path_coords endv.position).sub
        (cg2.path.point_from_path_coords pc.position)).magnitude =
        config.identical_max_distance →
      check_pair surface g config first second = some none) := by
  rw [check_pair_eval surface g config first second endv cg1 crow2 cg2 pc
    hv hc1 hrow2 hc2 hv2]
  constructor
  · constructor
    · rintro ⟨err, herr⟩
      by_contra hd
      rw [if_neg hd] at herr
      simp at herr
    · intro hd
      exact ⟨_, by rw [if_pos hd]⟩
  · intro heq
    rw [if_neg]
    rw [heq]
    exact lt_irrefl _

/-- A geometry state exercising the exact-tolerance boundary: the shared
vertex (pointer 10) sits at coordinate 0 on both curves, curve 20 starts at
the surface origin while curve 21 starts at (1, 0), one unit away. -/
def boundary_geometry : Geometry :=
  ⟨[((10, 20), ⟨0⟩), ((10, 21), ⟨0⟩)],
   [((20, 3), ⟨⟨⟨0, 0⟩, ⟨1, 0⟩⟩⟩), ((21, 3), ⟨⟨⟨1, 0⟩, ⟨0, 1⟩⟩⟩)], [], []⟩

/-- The first half-edge of the boundary fixture (on curve 20). -/
def boundary_first : Handle HalfEdge :=
  ⟨30, ⟨⟨20, ⟨⟩⟩, ⟨11, ⟨⟩⟩⟩⟩

/-- The second half-edge of the boundary fixture (on curve 21, starting at the
shared vertex 10). -/
def boundary_second : Handle HalfEdge :=
  ⟨31, ⟨⟨21, ⟨⟩⟩, ⟨10, ⟨⟩⟩⟩⟩

/-- Witness: with the configured tolerance exactly 1 and mapped positions
(0,0) and (1,0) — a mismatch of exactly the tolerance — the pair is
classified as connected. -/
theorem connectivity_check_strict_tolerance_witness :
    check_pair sample_surface boundary_geometry ⟨1⟩ boundary_first
      boundary_second = some none :=
  (connectivity_check_strict_tolerance sample_surface boundary_geometry ⟨1⟩
    boundary_first boundary_second ⟨0⟩ ⟨⟨⟨0, 0⟩, ⟨1, 0⟩⟩⟩ [(3, ⟨⟨⟨1, 0⟩, ⟨0, 1⟩⟩⟩)]
    ⟨⟨⟨1, 0⟩, ⟨0, 1⟩⟩⟩ ⟨0⟩ rfl rfl rfl rfl rfl).2 (by
      simp only [SurfacePath.point_from_path_coords, Point2.sub, Point2.magnitude]
      norm_num)

/-- When the distance between the mapped positions is within the tolerance,
the fully-defined pair is classified as connected: no error. -/
theorem check_pair_connected (surface : Handle Surface) (g : Geometry)
    (config : ValidationConfig) (first second : Handle HalfEdge)
    (endv : LocalVertexGeom) (cg1 : LocalCurveGeom)
    (crow2 : List (Nat × LocalCurveGeom)) (cg2 : LocalCurveGeom)
    (pc : LocalVertexGeom)
    (hv : vertex_local g second.value.start_vertex first.value.curve = some endv)
    (hc1 : curve_local g first.value.curve surface = some cg1)
    (hrow2 : g.of_curve second.value.curve = some crow2)
    (hc2 : local_on crow2 surface.ptr = some cg2)
    (hv2 : vertex_local g second.value.start_vertex second.value.curve = some pc)
    (hdist : ((cg1.path.point_from_path_coords endv.position).sub
      (cg2.path.point_from_path_coords pc.position)).magnitude ≤
      config.identical_max_distance) :
    check_pair surface g config first second = some none := by
  rw [check_pair_eval surface g config first second endv cg1 crow2 cg2 pc
    hv hc1 hrow2 hc2 hv2]
  rw [if_neg (not_lt.mpr hdist)]

/-- A geometry state where the FIRST half-edge's curve (20) has a context row
but no embedding on the checked surface 3 (it is embedded only in surface 9),
while everything about the second half-edge is fully defined. -/
def missing_first_embedding_geometry : Geometry :=
  ⟨[((10, 20), ⟨0⟩), ((10, 21), ⟨0⟩)],
   [((20, 9), ⟨⟨⟨0, 0⟩, ⟨1, 0⟩⟩⟩), ((21, 3), ⟨⟨⟨1, 0⟩, ⟨0, 1⟩⟩⟩)], [], []⟩

/-- C5 counterexample: when the first half-edge's curve has no local
embedding on the checked surface, the check does not skip the pair as a
recoverable absence — the lookup is a fatal unwrap, and the whole cycle check
aborts (None) instead of returning a (possibly empty) list of findings. -/
theorem first_curve_missing_embedding_is_fatal :
    check_pair sample_surface missing_first_embedding_geometry ⟨1⟩
      boundary_first boundary_second = none
    ∧ check_cycle ⟨[boundary_first, boundary_second]⟩ sample_surface
      missing_first_embedding_geometry ⟨1⟩ = none :=
  ⟨rfl, rfl⟩

/-- C5 (amended): the recoverable skip applies to the second half-edge's
curve: whenever the second's curve has a context row but no local embedding
on the face's surface, and the first half-edge's lookups are defined, the
check treats the absence as a normal result, skips the pair, and emits no
error; absence of the first half-edge's curve's embedding is instead a fatal
unwrap. -/
theorem check_skips_pair_when_second_curve_missing (surface : Handle Surface)
    (g : Geometry) (config : ValidationConfig) (first second : Handle HalfEdge)
    (endv : LocalVertexGeom) (cg1 : LocalCurveGeom)
    (crow2 : List (Nat × LocalCurveGeom))
    (hv : vertex_local g second.value.start_vertex first.value.curve = some endv)
    (hc1 : curve_local g first.value.curve surface = some cg1)
    (hrow2 : g.of_curve second.value.curve = some crow2)
    (hc2 : local_on crow2 surface.ptr = none) :
    check_pair surface g config first second = some none :=
  check_pair_skip surface g config first second endv cg1 crow2 hv hc1 hrow2 hc2

/-- A geometry state where the SECOND half-edge's curve (21) has a context row
but no embedding on the checked surface 3 (it is embedded only in surface 9). -/
def missing_second_embedding_geometry : Geometry :=
  ⟨[((10, 20), ⟨0⟩), ((10, 21), ⟨0⟩)],
   [((20, 3), ⟨⟨⟨0, 0⟩, ⟨1, 0⟩⟩⟩), ((21, 9), ⟨⟨⟨1, 0⟩, ⟨0, 1⟩⟩⟩)], [], []⟩

/-- Witness: the second half-edge's curve of the concrete fixture has no
embedding on surface 3, and the pair is skipped without an error. -/
theorem check_skips_pair_when_second_curve_missing_witness :
    check_pair sample_surface missing_second_embedding_geometry ⟨1⟩
      boundary_first boundary_second = some none :=
  check_skips_pair_when_second_curve_missing sample_surface
    missing_second_embedding_geometry ⟨1⟩ boundary_first boundary_second
    ⟨0⟩ ⟨⟨⟨0, 0⟩, ⟨1, 0⟩⟩⟩ [(9, ⟨⟨⟨1, 0⟩, ⟨0, 1⟩⟩⟩)] rfl rfl rfl rfl

/-! The triangle face of the validation test: vertices (0,0), (1,0), (1,1),
vertex pointers 0/1/2, curve pointers 10/11/12, half-edge pointers 20/21/22,
on the surface with pointer 3. -/

/-- Consistently defined geometry for the triangle: each vertex sits at
coordinate 0 of its outgoing curve and coordinate 1 of its incoming curve,
and the three curve paths join the triangle's corners. -/
def triangle_geometry : Geometry :=
  ⟨[((0, 10), ⟨0⟩), ((1, 10), ⟨1⟩),
    ((1, 11), ⟨0⟩), ((2, 11), ⟨1⟩),
    ((2, 12), ⟨0⟩), ((0, 12), ⟨1⟩)],
   [((10, 3), ⟨⟨⟨0, 0⟩, ⟨1, 0⟩⟩⟩),
    ((11, 3), ⟨⟨⟨1, 0⟩, ⟨0, 1⟩⟩⟩),
    ((12, 3), ⟨⟨⟨1, 1⟩, ⟨-1, -1⟩⟩⟩)], [], []⟩

/-- The triangle's first half-edge, from (0,0) towards (1,0). -/
def triangle_h0 : Handle HalfEdge :=
  ⟨20, ⟨⟨10, ⟨⟩⟩, ⟨0, ⟨⟩⟩⟩⟩

/-- The triangle's second half-edge, from (1,0) towards (1,1). -/
def triangle_h1 : Handle HalfEdge :=
  ⟨21, ⟨⟨11, ⟨⟩⟩, ⟨1, ⟨⟩⟩⟩⟩

/-- The triangle's third half-edge, from (1,1) back towards (0,0). -/
def triangle_h2 : Handle HalfEdge :=
  ⟨22, ⟨⟨12, ⟨⟩⟩, ⟨2, ⟨⟩⟩⟩⟩

/-- The triangle's exterior cycle. -/
def triangle_cycle : Cycle :=
  ⟨[triangle_h0, triangle_h1, triangle_h2]⟩

/-- The triangle face: one region, no interior cycles, on surface 3. -/
def triangle_face : Face :=
  ⟨⟨triangle_cycle, []⟩, sample_surface⟩

/-- C7: for the face built as the closed triangle (0,0), (1,0), (1,1) with
consistently defined vertex positions, the adjacent-half-edges-not-connected
check reports zero errors for every nonnegative configured tolerance — and
the cyclic pairs iteration does examine the wrap-around pair of the last and
first half-edges. -/
theorem triangle_face_check_reports_no_errors (config : ValidationConfig)
    (htol : 0 ≤ config.identical_max_distance) :
    (triangle_h2, triangle_h0) ∈ pairs triangle_cycle.half_edges
    ∧ check_face triangle_face triangle_geometry config = some [] := by
  have h01 : check_pair sample_surface triangle_geometry config
      triangle_h0 triangle_h1 = some none := by
    refine check_pair_connected sample_surface triangle_geometry config
      triangle_h0 triangle_h1 ⟨1⟩ ⟨⟨⟨0, 0⟩, ⟨1, 0⟩⟩⟩ [(3, ⟨⟨⟨1, 0⟩, ⟨0, 1⟩⟩⟩)]
      ⟨⟨⟨1, 0⟩, ⟨0, 1⟩⟩⟩ ⟨0⟩ rfl rfl rfl rfl rfl ?_
    simp only [SurfacePath.point_from_path_coords, Point2.sub, Point2.magnitude]
    norm_num
    exact htol
  have h12 : check_pair sample_surface triangle_geometry config
      triangle_h1 triangle_h2 = some none := by
    refine check_pair_connected sample_surface triangle_geometry config
      triangle_h1 triangle_h2 ⟨1⟩ ⟨⟨⟨1, 0⟩, ⟨0, 1⟩⟩⟩ [(3, ⟨⟨⟨1, 1⟩, ⟨-1, -1⟩⟩⟩)]
      ⟨⟨⟨1, 1⟩, ⟨-1, -1⟩⟩⟩ ⟨0⟩ rfl rfl rfl rfl rfl ?_
    simp only [SurfacePath.point_from_path_coords, Point2.sub, Point2.magnitude]
    norm_num
    exact htol
  have h20 : check_pair sample_surface triangle_geometry config
      triangle_h2 triangle_h0 = some none := by
    refine check_pair_connected sample_surface triangle_geometry config
      triangle_h2 triangle_h0 ⟨1⟩ ⟨⟨⟨1, 1⟩, ⟨-1, -1⟩⟩⟩ [(3, ⟨⟨⟨0, 0⟩, ⟨1, 0⟩⟩⟩)]
      ⟨⟨⟨0, 0⟩, ⟨1, 0⟩⟩⟩ ⟨0⟩ rfl rfl rfl rfl rfl ?_
    simp only [SurfacePath.point_from_path_coords, Point2.sub, Point2.magnitude]
    norm_num
    exact htol
  constructor
  · have hp : pairs triangle_cycle.half_edges =
        [(triangle_h0, triangle_h1), (triangle_h1, triangle_h2),
          (triangle_h2, triangle_h0)] := rfl
    rw [hp]
    simp
  · have hcyc : check_cycle triangle_cycle sample_surface triangle_geometry
        config = some [] := by
      unfold check_cycle
      have hp : pairs triangle_cycle.half_edges =
          [(triangle_h0, triangle_h1), (triangle_h1, triangle_h2),
            (triangle_h2, triangle_h0)] := rfl
      rw [hp]
      simp only [traverseOption, h01, h12, h20]
      rfl
    show (traverseOption
        (fun cycle => check_cycle cycle sample_surface triangle_geometry config)
        [triangle_cycle]).map List.flatten = some []
    simp only [traverseOption, hcyc]
    rfl

/-- Witness: the triangle check theorem applied at the concrete tolerance
1/1000 (which is nonnegative). -/
theorem triangle_face_check_reports_no_errors_witness :
    (0 : Real) ≤ (1 / 1000 : Real)
    ∧ ((triangle_h2, triangle_h0) ∈ pairs triangle_cycle.half_edges
      ∧ check_face triangle_face triangle_geometry ⟨1 / 1000⟩ = some []) :=
  ⟨by norm_num,
    triangle_face_check_reports_no_errors ⟨1 / 1000⟩ (by norm_num)⟩

/-- Reversing a path's coordinate system twice restores the original path:
the direction is negated twice. -/
theorem SurfacePath.reverse_reverse (p : SurfacePath) : p.reverse.reverse = p := by
  simp [SurfacePath.reverse]

/-- C8: applying Reverse twice, with the same end-vertex and surface context
each time, yields a half-edge whose geometry round-trips exactly (hence is
equivalent within any tolerance): the start vertex handle is preserved, both
vertices' local positions on the final curve are their original values on the
original curve, and the final curve's path on the surface is the original
path — the traversal direction flips back. -/
theorem reverse_involution
    (core : Core) (half_edge : Handle HalfEdge) (end_vertex : Handle Vertex)
    (surface : Handle Surface) (s e : LocalVertexGeom) (cg : LocalCurveGeom)
    (hs : vertex_local core.geometry half_edge.value.start_vertex
      half_edge.value.curve = some s)
    (hev : vertex_local core.geometry end_vertex half_edge.value.curve = some e)
    (hc : curve_local core.geometry half_edge.value.curve surface = some cg) :
    (∃ r1, reverse_curve_coordinate_systems half_edge end_vertex surface core =
      some r1)
    ∧ ∀ he2 core2,
        reverse_curve_coordinate_systems half_edge end_vertex surface core =
          some (he2, core2) →
        (∃ r2, reverse_curve_coordinate_systems he2 end_vertex surface core2 =
          some r2)
        ∧ ∀ he3 core3,
            reverse_curve_coordinate_systems he2 end_vertex surface core2 =
              some (he3, core3) →
            he3.value.start_vertex = half_edge.value.start_vertex
            ∧ vertex_local core3.geometry he3.value.start_vertex
                he3.value.curve = some s
            ∧ vertex_local core3.geometry end_vertex he3.value.curve = some e
            ∧ curve_local core3.geometry he3.value.curve surface = some cg := by
  obtain ⟨hex1, hpost1⟩ :=
    reverse_run_spec core half_edge end_vertex surface s e cg hs hev hc
  refine ⟨hex1, ?_⟩
  intro he2 core2 hrun1
  obtain ⟨hsv2, hvs2, hve2, hc2⟩ := hpost1 he2 core2 hrun1
  obtain ⟨hex2, hpost2⟩ := reverse_run_spec core2 he2 end_vertex surface e s
    ⟨cg.path.reverse⟩ hvs2 hve2 hc2
  refine ⟨hex2, ?_⟩
  intro he3 core3 hrun2
  obtain ⟨hsv3, hvs3, hve3, hc3⟩ := hpost2 he3 core3 hrun2
  refine ⟨hsv3.trans hsv2, hvs3, hve3, ?_⟩
  rw [hc3]
  simp [SurfacePath.reverse_reverse]

/-- Witness: the involution theorem applied to the concrete sample context. -/
theorem reverse_involution_witness :
    (∃ r1, reverse_curve_coordinate_systems sample_half_edge sample_end_vertex
      sample_surface sample_core = some r1)
    ∧ ∀ he2 core2,
        reverse_curve_coordinate_systems sample_half_edge sample_end_vertex
          sample_surface sample_core = some (he2, core2) →
        (∃ r2, reverse_curve_coordinate_systems he2 sample_end_vertex
          sample_surface core2 = some r2)
        ∧ ∀ he3 core3,
            reverse_curve_coordinate_systems he2 sample_end_vertex
              sample_surface core2 = some (he3, core3) →
            he3.value.start_vertex = sample_half_edge.value.start_vertex
            ∧ vertex_local core3.geometry he3.value.start_vertex
                he3.value.curve = some ⟨0⟩
            ∧ vertex_local core3.geometry sample_end_vertex he3.value.curve =
                some ⟨1⟩
            ∧ curve_local core3.geometry he3.value.curve sample_surface =
                some ⟨⟨⟨0, 0⟩, ⟨1, 0⟩⟩⟩ :=
  reverse_involution sample_core sample_half_edge sample_end_vertex
    sample_surface ⟨0⟩ ⟨1⟩ ⟨⟨⟨0, 0⟩, ⟨1, 0⟩⟩⟩ rfl rfl rfl

/-! Membership lemmas for traversals, used to characterise where the
findings of a check come from. -/

/-- Every element of the output list of a successful traversal is produced
from some input element. -/
theorem traverseOption_mem {α β : Type} (f : α → Option β) :
    ∀ (xs : List α) (ys : List β), traverseOption f xs = some ys →
      ∀ y ∈ ys, ∃ x ∈ xs, f x = some y := by
  intro xs
  induction xs with
  | nil =>
    intro ys h y hy
    simp only [traverseOption, Option.some.injEq] at h
    subst h
    simp at hy
  | cons x xs ih =>
    intro ys h y hy
    unfold traverseOption at h
    cases hfx : f x with
    | none =>
      rw [hfx] at h
      simp at h
    | some z =>
      rw [hfx] at h
      cases hrest : traverseOption f xs with
      | none =>
        rw [hrest] at h
        simp at h
      | some zs =>
        rw [hrest] at h
        simp only [Option.map_some', Option.some.injEq] at h
        subst h
        rcases List.mem_cons.mp hy with hz | hzs
        · exact ⟨x, List.mem_cons_self x xs, by rw [hfx, hz]⟩
        · obtain ⟨x2, hx2, hfx2⟩ := ih zs hrest y hzs
          exact ⟨x2, List.mem_cons_of_mem x hx2, hfx2⟩

/-- A successful traversal maps every input element to some output element. -/
theorem traverseOption_mem_of {α β : Type} (f : α → Option β) :
    ∀ (xs : List α) (ys : List β), traverseOption f xs = some ys →
      ∀ x ∈ xs, ∃ y, f x = some y ∧ y ∈ ys := by
  intro xs
  induction xs with
  | nil =>
    intro ys h x hx
    simp at hx
  | cons x0 xs ih =>
    intro ys h x hx
    unfold traverseOption at h
    cases hfx : f x0 with
    | none =>
      rw [hfx] at h
      simp at h
    | some z =>
      rw [hfx] at h
      cases hrest : traverseOption f xs with
      | none =>
        rw [hrest] at h
        simp at h
      | some zs =>
        rw [hrest] at h
        simp only [Option.map_some', Option.some.injEq] at h
        subst h
        rcases List.mem_cons.mp hx with hx0 | hxs
        · subst hx0
          exact ⟨z, hfx, List.mem_cons_self _ _⟩
        · obtain ⟨y, hy, hymem⟩ := ih zs hrest x hxs
          exact ⟨y, hy, List.mem_cons_of_mem _ hymem⟩

/-- The exact payload of an emitted connectivity error for an adjacent pair
(first, second): the error carries the mapped end position of the first
half-edge (the shared vertex's position on first's curve pushed through
first's curve-on-surface path), the mapped start position of the second
(analogously), the Euclidean distance between exactly those two carried
positions, and the two offending handles in (first, second) order. -/
def error_payload_exact (g : Geometry) (surface : Handle Surface)
    (first second : Handle HalfEdge)
    (err : AdjacentHalfEdgesNotConnected) : Prop :=
  ∃ endv cg1 cg2 pc,
    vertex_local g second.value.start_vertex first.value.curve = some endv
    ∧ curve_local g first.value.curve surface = some cg1
    ∧ curve_local g second.value.curve surface = some cg2
    ∧ vertex_local g second.value.start_vertex second.value.curve = some pc
    ∧ err.end_pos_of_first_half_edge =
        cg1.path.point_from_path_coords endv.position
    ∧ err.start_pos_of_second_half_edge =
        cg2.path.point_from_path_coords pc.position
    ∧ err.distance_between_positions =
        (err.end_pos_of_first_half_edge.sub
          err.start_pos_of_second_half_edge).magnitude
    ∧ err.unconnected_half_edges = (first, second)

/-- Whenever the pair check emits an error, the error carries exactly the
mapped positions, their distance, and the pair's handles, and the distance
strictly exceeds the tolerance. -/
theorem check_pair_some_payload (surface : Handle Surface) (g : Geometry)
    (config : ValidationConfig) (first second : Handle HalfEdge)
    (err : AdjacentHalfEdgesNotConnected)
    (h : check_pair surface g config first second = some (some err)) :
    error_payload_exact g surface first second err
    ∧ err.distance_between_positions > config.identical_max_distance := by
  unfold check_pair at h
  simp only [Option.bind_eq_bind] at h
  cases hv : vertex_local g second.value.start_vertex first.value.curve with
  | none =>
    rw [hv] at h
    simp at h
  | some endv =>
    rw [hv] at h
    simp only [Option.some_bind] at h
    cases hc1 : curve_local g first.value.curve surface with
    | none =>
      rw [hc1] at h
      simp at h
    | some cg1 =>
      rw [hc1] at h
      simp only [Option.some_bind] at h
      cases hrow2 : g.of_curve second.value.curve with
      | none =>
        rw [hrow2] at h
        simp at h
      | some crow2 =>
        rw [hrow2] at h
        simp only [Option.some_bind] at h
        cases hc2 : local_on crow2 surface.ptr with
        | none =>
          rw [hc2] at h
          simp at h
        | some cg2 =>
          rw [hc2] at h
          cases hv2 : vertex_local g second.value.start_vertex
              second.value.curve with
          | none =>
            rw [hv2] at h
            simp at h
          | some pc =>
            rw [hv2] at h
            simp only [Option.some_bind] at h
            by_cases hd : ((cg1.path.point_from_path_coords endv.position).sub
                (cg2.path.point_from_path_coords pc.position)).magnitude >
                config.identical_max_distance
            · rw [if_pos hd] at h
              simp only [Option.some.injEq] at h
              subst h
              have hcl : curve_local g second.value.curve surface = some cg2 := by
                unfold curve_local
                rw [hrow2]
                simpa using hc2
              exact ⟨⟨endv, cg1, cg2, pc, hv, hc1, hcl, hv2,
                rfl, rfl, rfl, by simp [Handle.clone_eq]⟩, hd⟩
            · rw [if_neg hd] at h
              simp at h

/-- Where the findings of a cycle check come from, and that every error an
examined pair produces is among the findings. -/
theorem check_cycle_mem (cycle : Cycle) (surface : Handle Surface)
    (g : Geometry) (config : ValidationConfig)
    (errs : List AdjacentHalfEdgesNotConnected)
    (h : check_cycle cycle surface g config = some errs) :
    (∀ err ∈ errs, ∃ fs ∈ pairs cycle.half_edges,
      check_pair surface g config fs.1 fs.2 = some (some err))
    ∧ (∀ fs ∈ pairs cycle.half_edges, ∀ err,
      check_pair surface g config fs.1 fs.2 = some (some err) → err ∈ errs) := by
  unfold check_cycle at h
  cases htr : traverseOption
      (fun p => check_pair surface g config p.1 p.2) (pairs cycle.half_edges) with
  | none =>
    rw [htr] at h
    simp at h
  | some rs =>
    rw [htr] at h
    simp only [Option.map_some', Option.some.injEq] at h
    subst h
    constructor
    · intro err herr
      rw [List.mem_filterMap] at herr
      obtain ⟨r, hr, hid⟩ := herr
      obtain ⟨fs, hfs, hfsr⟩ := traverseOption_mem _ _ _ htr r hr
      refine ⟨fs, hfs, ?_⟩
      rw [hfsr]
      simp only [id] at hid
      rw [hid]
    · intro fs hfs err hpair
      obtain ⟨r, hr, hrmem⟩ := traverseOption_mem_of _ _ _ htr fs hfs
      have hre : r = some err := by
        rw [hr] at hpair
        exact Option.some.inj hpair
      subst hre
      rw [List.mem_filterMap]
      exact ⟨some err, hrmem, rfl⟩

/-- Where the findings of a region check come from: the exterior cycle or one
of the interior cycles; and completeness for every examined pair. -/
theorem check_region_mem (region : Region) (surface : Handle Surface)
    (g : Geometry) (config : ValidationConfig)
    (errs : List AdjacentHalfEdgesNotConnected)
    (h : check_region region surface g config = some errs) :
    (∀ err ∈ errs, ∃ cycle ∈ region.exterior :: region.interiors,
      ∃ fs ∈ pairs cycle.half_edges,
        check_pair surface g config fs.1 fs.2 = some (some err))
    ∧ (∀ cycle ∈ region.exterior :: region.interiors,
      ∀ fs ∈ pairs cycle.half_edges, ∀ err,
        check_pair surface g config fs.1 fs.2 = some (some err) →
        err ∈ errs) := by
  unfold check_region at h
  cases htr : traverseOption
      (fun cycle => check_cycle cycle surface g config)
      (region.exterior :: region.interiors) with
  | none =>
    rw [htr] at h
    simp at h
  | some css =>
    rw [htr] at h
    simp only [Option.map_some', Option.some.injEq] at h
    subst h
    constructor
    · intro err herr
      rw [List.mem_flatten] at herr
      obtain ⟨cs, hcs, herrcs⟩ := herr
      obtain ⟨cycle, hcyc, hrun⟩ := traverseOption_mem _ _ _ htr cs hcs
      obtain ⟨fs, hfs, hp⟩ := (check_cycle_mem cycle surface g config cs hrun).1
        err herrcs
      exact ⟨cycle, hcyc, fs, hfs, hp⟩
    · intro cycle hcyc fs hfs err hp
      obtain ⟨cs, hrun, hcsmem⟩ := traverseOption_mem_of _ _ _ htr cycle hcyc
      have herrcs := (check_cycle_mem cycle surface g config cs hrun).2 fs hfs
        err hp
      rw [List.mem_flatten]
      exact ⟨cs, hcsmem, herrcs⟩

/-- C6: the check examines the exterior cycle and every interior cycle of
every region — the one region of a Face, all regions of a Sketch — and every
error it emits carries exactly the mapped end position of the first
half-edge, the mapped start position of the second, the Euclidean distance
between those two carried positions, and the offending handles in (first,
second) order; conversely every error an examined pair produces is among the
findings. -/
theorem connectivity_check_scope_and_payload (g : Geometry)
    (config : ValidationConfig) :
    (∀ (face : Face) errs, check_face face g config = some errs →
      (∀ err ∈ errs, ∃ cycle ∈ face.region.exterior :: face.region.interiors,
        ∃ fs ∈ pairs cycle.half_edges,
          error_payload_exact g face.surface fs.1 fs.2 err
          ∧ err.distance_between_positions > config.identical_max_distance)
      ∧ (∀ cycle ∈ face.region.exterior :: face.region.interiors,
          ∀ fs ∈ pairs cycle.half_edges, ∀ err,
            check_pair face.surface g config fs.1 fs.2 = some (some err) →
            err ∈ errs))
    ∧ (∀ (sketch : Sketch) errs, check_sketch sketch g config = some errs →
      (∀ err ∈ errs, ∃ region ∈ sketch.regions,
        ∃ cycle ∈ region.exterior :: region.interiors,
        ∃ fs ∈ pairs cycle.half_edges,
          error_payload_exact g sketch.surface fs.1 fs.2 err
          ∧ err.distance_between_positions > config.identical_max_distance)
      ∧ (∀ region ∈ sketch.regions,
          ∀ cycle ∈ region.exterior :: region.interiors,
          ∀ fs ∈ pairs cycle.half_edges, ∀ err,
            check_pair sketch.surface g config fs.1 fs.2 = some (some err) →
            err ∈ errs)) := by
  constructor
  · intro face errs h
    obtain ⟨hfrom, hcomplete⟩ := check_region_mem face.region face.surface
      g config errs h
    constructor
    · intro err herr
      obtain ⟨cycle, hcyc, fs, hfs, hp⟩ := hfrom err herr
      exact ⟨cycle, hcyc, fs, hfs,
        check_pair_some_payload face.surface g config fs.1 fs.2 err hp⟩
    · exact hcomplete
  · intro sketch errs h
    unfold check_sketch at h
    cases htr : traverseOption
        (fun region => check_region region sketch.surface g config)
        sketch.regions with
    | none =>
      rw [htr] at h
      simp at h
    | some rss =>
      rw [htr] at h
      simp only [Option.map_some', Option.some.injEq] at h
      subst h
      constructor
      · intro err herr
        rw [List.mem_flatten] at herr
        obtain ⟨rs, hrs, herrrs⟩ := herr
        obtain ⟨region, hreg, hrun⟩ := traverseOption_mem _ _ _ htr rs hrs
        obtain ⟨cycle, hcyc, fs, hfs, hp⟩ :=
          (check_region_mem region sketch.surface g config rs hrun).1 err herrrs
        exact ⟨region, hreg, cycle, hcyc, fs, hfs,
          check_pair_some_payload sketch.surface g config fs.1 fs.2 err hp⟩
      · intro region hreg cycle hcyc fs hfs err hp
        obtain ⟨rs, hrun, hrsmem⟩ := traverseOption_mem_of _ _ _ htr region hreg
        have herrrs := (check_region_mem region sketch.surface g config rs
          hrun).2 cycle hcyc fs hfs err hp
        rw [List.mem_flatten]
        exact ⟨rs, hrsmem, herrrs⟩

/-- The triangle geometry with the shared vertex 1's position on curve 10
redefined to coordinate 2: the first pair's mapped positions become (2,0) and
(1,0), one unit apart. -/
def broken_triangle_geometry : Geometry :=
  ⟨[((0, 10), ⟨0⟩), ((1, 10), ⟨2⟩),
    ((1, 11), ⟨0⟩), ((2, 11), ⟨1⟩),
    ((2, 12), ⟨0⟩), ((0, 12), ⟨1⟩)],
   [((10, 3), ⟨⟨⟨0, 0⟩, ⟨1, 0⟩⟩⟩),
    ((11, 3), ⟨⟨⟨1, 0⟩, ⟨0, 1⟩⟩⟩),
    ((12, 3), ⟨⟨⟨1, 1⟩, ⟨-1, -1⟩⟩⟩)], [], []⟩

/-- The single error the check finds on the broken triangle. -/
noncomputable def broken_error : AdjacentHalfEdgesNotConnected :=
  ⟨SurfacePath.point_from_path_coords ⟨⟨0, 0⟩, ⟨1, 0⟩⟩ 2,
   SurfacePath.point_from_path_coords ⟨⟨1, 0⟩, ⟨0, 1⟩⟩ 0,
   ((SurfacePath.point_from_path_coords ⟨⟨0, 0⟩, ⟨1, 0⟩⟩ 2).sub
     (SurfacePath.point_from_path_coords ⟨⟨1, 0⟩, ⟨0, 1⟩⟩ 0)).magnitude,
   (triangle_h0, triangle_h1)⟩

/-- The check on the broken triangle face finds exactly the one error. -/
theorem broken_triangle_check_finds_one_error :
    check_face ⟨⟨triangle_cycle, []⟩, sample_surface⟩ broken_triangle_geometry
      ⟨1 / 1000⟩ = some [broken_error] := by
  have h01 : check_pair sample_surface broken_triangle_geometry ⟨1 / 1000⟩
      triangle_h0 triangle_h1 = some (some broken_error) := by
    rw [check_pair_eval sample_surface broken_triangle_geometry ⟨1 / 1000⟩
      triangle_h0 triangle_h1 ⟨2⟩ ⟨⟨⟨0, 0⟩, ⟨1, 0⟩⟩⟩ [(3, ⟨⟨⟨1, 0⟩, ⟨0, 1⟩⟩⟩)]
      ⟨⟨⟨1, 0⟩, ⟨0, 1⟩⟩⟩ ⟨0⟩ rfl rfl rfl rfl rfl]
    rw [if_pos]
    · rfl
    · simp only [SurfacePath.point_from_path_coords, Point2.sub, Point2.magnitude]
      norm_num
  have h12 : check_pair sample_surface broken_triangle_geometry ⟨1 / 1000⟩
      triangle_h1 triangle_h2 = some none := by
    refine check_pair_connected sample_surface broken_triangle_geometry
      ⟨1 / 1000⟩ triangle_h1 triangle_h2 ⟨1⟩ ⟨⟨⟨1, 0⟩, ⟨0, 1⟩⟩⟩
      [(3, ⟨⟨⟨1, 1⟩, ⟨-1, -1⟩⟩⟩)] ⟨⟨⟨1, 1⟩, ⟨-1, -1⟩⟩⟩ ⟨0⟩ rfl rfl rfl rfl rfl ?_
    simp only [SurfacePath.point_from_path_coords, Point2.sub, Point2.magnitude]
    norm_num
  have h20 : check_pair sample_surface broken_triangle_geometry ⟨1 / 1000⟩
      triangle_h2 triangle_h0 = some none := by
    refine check_pair_connected sample_surface broken_triangle_geometry
      ⟨1 / 1000⟩ triangle_h2 triangle_h0 ⟨1⟩ ⟨⟨⟨1, 1⟩, ⟨-1, -1⟩⟩⟩
      [(3, ⟨⟨⟨0, 0⟩, ⟨1, 0⟩⟩⟩)] ⟨⟨⟨0, 0⟩, ⟨1, 0⟩⟩⟩ ⟨0⟩ rfl rfl rfl rfl rfl ?_
    simp only [SurfacePath.point_from_path_coords, Point2.sub, Point2.magnitude]
    norm_num
  have hcyc : check_cycle triangle_cycle sample_surface broken_triangle_geometry
      ⟨1 / 1000⟩ = some [broken_error] := by
    unfold check_cycle
    have hp : pairs triangle_cycle.half_edges =
        [(triangle_h0, triangle_h1), (triangle_h1, triangle_h2),
          (triangle_h2, triangle_h0)] := rfl
    rw [hp]
    simp only [traverseOption, h01, h12, h20]
    rfl
  show (traverseOption
      (fun cycle => check_cycle cycle sample_surface broken_triangle_geometry
        ⟨1 / 1000⟩)
      [triangle_cycle]).map List.flatten = some [broken_error]
  simp only [traverseOption, hcyc]
  rfl

/-- Witness: the scope-and-payload theorem applied to the broken triangle,
whose check finds exactly one error, instantiated at that error. -/
theorem connectivity_check_scope_and_payload_witness :
    ∃ cycle ∈ (⟨⟨triangle_cycle, []⟩, sample_surface⟩ : Face).region.exterior ::
      (⟨⟨triangle_cycle, []⟩, sample_surface⟩ : Face).region.interiors,
    ∃ fs ∈ pairs cycle.half_edges,
      error_payload_exact broken_triangle_geometry sample_surface fs.1 fs.2
        broken_error
      ∧ broken_error.distance_between_positions > (1 / 1000 : Real) :=
  ((connectivity_check_scope_and_payload broken_triangle_geometry ⟨1 / 1000⟩).1
    ⟨⟨triangle_cycle, []⟩, sample_surface⟩ [broken_error]
    broken_triangle_check_finds_one_error).1 broken_error
    (List.mem_cons_self broken_error [])

/-! The check threaded through the working context.  Validation takes the
context by shared reference; threading the context through every geometry
access makes the read-only behaviour provable: the borrowed state comes back
unchanged and the findings depend on the geometry layers alone. -/

/-- A read-only access to the geometry layers through the working context:
the looked-up value together with the context, unchanged (a failing lookup is
the usual fatal unwrap). -/
def read_geom {α : Type} (f : Geometry → Option α) (core : Core) :
    Option (α × Core) :=
  (f core.geometry).map (fun a => (a, core))

/-- The pair check threaded through the working context: every geometry
access is an explicit read of the borrowed state. -/
noncomputable def check_pair_st (surface : Handle Surface)
    (config : ValidationConfig) (first second : Handle HalfEdge) (core : Core) :
    Option (Option AdjacentHalfEdgesNotConnected × Core) := do
  let (endv, core) ← read_geom
    (fun g => vertex_local g second.value.start_vertex first.value.curve) core
  let (cg1, core) ← read_geom
    (fun g => curve_local g first.value.curve surface) core
  let end_pos_of_first_half_edge := cg1.path.point_from_path_coords endv.position
  let (crow2, core) ← read_geom (fun g => g.of_curve second.value.curve) core
  match local_on crow2 surface.ptr with
  | none => some (none, core)
  | some local_curve_geometry => do
    let (point_curve, core) ← read_geom
      (fun g => vertex_local g second.value.start_vertex second.value.curve) core
    let start_pos_of_second_half_edge :=
      local_curve_geometry.path.point_from_path_coords point_curve.position
    let distance_between_positions :=
      (end_pos_of_first_half_edge.sub start_pos_of_second_half_edge).magnitude
    if distance_between_positions > config.identical_max_distance then
      some (some ⟨end_pos_of_first_half_edge, start_pos_of_second_half_edge,
        distance_between_positions,
        (Handle.clone first, Handle.clone second)⟩, core)
    else
      some (none, core)

/-- Traversal of a list of threaded steps. -/
def traverse_st {α β : Type} (f : α → Core → Option (β × Core)) :
    List α → Core → Option (List β × Core)
  | [], core => some ([], core)
  | x :: xs, core => do
    let (y, core) ← f x core
    let (ys, core) ← traverse_st f xs core
    some (y :: ys, core)

/-- The cycle check threaded through the working context. -/
noncomputable def check_cycle_st (cycle : Cycle) (surface : Handle Surface)
    (config : ValidationConfig) (core : Core) :
    Option (List AdjacentHalfEdgesNotConnected × Core) := do
  let (rs, core) ← traverse_st
    (fun p => check_pair_st surface config p.1 p.2)
    (pairs cycle.half_edges) core
  some (rs.filterMap id, core)

/-- The region check threaded through the working context. -/
noncomputable def check_region_st (region : Region) (surface : Handle Surface)
    (config : ValidationConfig) (core : Core) :
    Option (List AdjacentHalfEdgesNotConnected × Core) := do
  let (css, core) ← traverse_st
    (fun cycle => check_cycle_st cycle surface config)
    (region.exterior :: region.interiors) core
  some (css.flatten, core)

/-- The Face check threaded through the working context. -/
noncomputable def check_face_st (object : Face) (config : ValidationConfig)
    (core : Core) : Option (List AdjacentHalfEdgesNotConnected × Core) :=
  check_region_st object.region object.surface config core

/-- The Sketch check threaded through the working context. -/
noncomputable def check_sketch_st (object : Sketch) (config : ValidationConfig)
    (core : Core) : Option (List AdjacentHalfEdgesNotConnected × Core) := do
  let (rss, core) ← traverse_st
    (fun region => check_region_st region object.surface config)
    object.regions core
  some (rss.flatten, core)

/-- The threaded pair check is the pure pair check on the context's geometry,
with the context returned unchanged. -/
theorem check_pair_st_eq (surface : Handle Surface) (config : ValidationConfig)
    (first second : Handle HalfEdge) (core : Core) :
    check_pair_st surface config first second core =
      (check_pair surface core.geometry config first second).map
        (fun r => (r, core)) := by
  unfold check_pair_st check_pair read_geom
  cases hv : vertex_local core.geometry second.value.start_vertex
      first.value.curve with
  | none => simp [hv]
  | some endv =>
    simp only [hv, Option.map_some', Option.bind_eq_bind, Option.some_bind]
    cases hc1 : curve_local core.geometry first.value.curve surface with
    | none => simp [hc1]
    | some cg1 =>
      simp only [hc1, Option.map_some', Option.some_bind]
      cases hrow2 : core.geometry.of_curve second.value.curve with
      | none => simp [hrow2]
      | some crow2 =>
        simp only [hrow2, Option.map_some', Option.some_bind]
        cases hc2 : local_on crow2 surface.ptr with
        | none => simp [hc2]
        | some lcg =>
          simp only [hc2]
          cases hv2 : vertex_local core.geometry second.value.start_vertex
              second.value.curve with
          | none => simp [hv2]
          | some pc =>
            simp only [hv2, Option.map_some', Option.some_bind]
            split <;> rfl

/-- A traversal of read-only steps is the pure traversal on the context's
geometry, with the context returned unchanged. -/
theorem traverse_st_eq {α β : Type} (f : α → Core → Option (β × Core))
    (p : α → Geometry → Option β)
    (hf : ∀ x core, f x core = (p x core.geometry).map (fun y => (y, core))) :
    ∀ (xs : List α) (core : Core),
      traverse_st f xs core =
        (traverseOption (fun x => p x core.geometry) xs).map
          (fun ys => (ys, core)) := by
  intro xs
  induction xs with
  | nil =>
    intro core
    rfl
  | cons x xs ih =>
    intro core
    unfold traverse_st traverseOption
    rw [hf x core]
    cases hp : p x core.geometry with
    | none => simp
    | some y =>
      simp only [Option.map_some', Option.bind_eq_bind, Option.some_bind]
      rw [ih core]
      cases traverseOption (fun x => p x core.geometry) xs with
      | none => simp
      | some ys => simp

/-- The threaded cycle check is the pure cycle check on the context's
geometry, with the context returned unchanged. -/
theorem check_cycle_st_eq (cycle : Cycle) (surface : Handle Surface)
    (config : ValidationConfig) (core : Core) :
    check_cycle_st cycle surface config core =
      (check_cycle cycle surface core.geometry config).map
        (fun errs => (errs, core)) := by
  unfold check_cycle_st check_cycle
  rw [traverse_st_eq (fun p => check_pair_st surface config p.1 p.2)
    (fun p g => check_pair surface g config p.1 p.2)
    (fun p c => check_pair_st_eq surface config p.1 p.2 c)
    (pairs cycle.half_edges) core]
  cases traverseOption
      (fun p => check_pair surface core.geometry config p.1 p.2)
      (pairs cycle.half_edges) with
  | none => simp
  | some rs => simp

/-- The threaded region check is the pure region check on the context's
geometry, with the context returned unchanged. -/
theorem check_region_st_eq (region : Region) (surface : Handle Surface)
    (config : ValidationConfig) (core : Core) :
    check_region_st region surface config core =
      (check_region region surface core.geometry config).map
        (fun errs => (errs, core)) := by
  unfold check_region_st check_region
  rw [traverse_st_eq (fun cycle => check_cycle_st cycle surface config)
    (fun cycle g => check_cycle cycle surface g config)
    (fun cycle c => check_cycle_st_eq cycle surface config c)
    (region.exterior :: region.interiors) core]
  cases traverseOption
      (fun cycle => check_cycle cycle surface core.geometry config)
      (region.exterior :: region.interiors) with
  | none => simp
  | some css => simp

/-- C9: the adjacent-half-edges-not-connected check is deterministic and
read-only.  Threaded through the working context, a run on a Face or Sketch
returns the borrowed context unchanged and its findings are a function of the
object, the geometry layers and the configuration alone; consequently
re-running the check on the unchanged inputs yields the same findings. -/
theorem connectivity_check_deterministic_read_only
    (config : ValidationConfig) (core : Core) :
    (∀ object : Face, check_face_st object config core =
      (check_face object core.geometry config).map (fun errs => (errs, core)))
    ∧ (∀ object : Sketch, check_sketch_st object config core =
      (check_sketch object core.geometry config).map (fun errs => (errs, core)))
    ∧ (∀ (object : Face) r core2,
        check_face_st object config core = some (r, core2) →
        core2 = core ∧ check_face_st object config core2 = some (r, core2)) := by
  have hface : ∀ object : Face, check_face_st object config core =
      (check_face object core.geometry config).map (fun errs => (errs, core)) :=
    fun object => check_region_st_eq object.region object.surface config core
  refine ⟨hface, ?_, ?_⟩
  · intro object
    unfold check_sketch_st check_sketch
    rw [traverse_st_eq (fun region => check_region_st region object.surface config)
      (fun region g => check_region region object.surface g config)
      (fun region c => check_region_st_eq region object.surface config c)
      object.regions core]
    cases traverseOption
        (fun region => check_region region object.surface core.geometry config)
        object.regions with
    | none => simp
    | some rss => simp
  · intro object r core2 hrun
    rw [hface object] at hrun
    cases hpure : check_face object core.geometry config with
    | none =>
      rw [hpure] at hrun
      simp at hrun
    | some errs =>
      rw [hpure] at hrun
      simp only [Option.map_some', Option.some.injEq, Prod.mk.injEq] at hrun
      obtain ⟨hr, hcore⟩ := hrun
      subst hr
      subst hcore
      refine ⟨rfl, ?_⟩
      rw [hface object, hpure]
      rfl

/-- A concrete working context around the broken triangle geometry. -/
def broken_core : Core :=
  ⟨⟨100⟩, broken_triangle_geometry, []⟩

/-- Witness: a concrete threaded run of the Face check on the broken triangle
leaves the context unchanged, and the re-run returns the same findings. -/
theorem connectivity_check_deterministic_read_only_witness :
    broken_core = broken_core
    ∧ check_face_st ⟨⟨triangle_cycle, []⟩, sample_surface⟩ ⟨1 / 1000⟩
        broken_core = some ([broken_error], broken_core) := by
  have hrun : check_face_st ⟨⟨triangle_cycle, []⟩, sample_surface⟩ ⟨1 / 1000⟩
      broken_core = some ([broken_error], broken_core) := by
    rw [(connectivity_check_deterministic_read_only ⟨1 / 1000⟩ broken_core).1
      ⟨⟨triangle_cycle, []⟩, sample_surface⟩]
    have hg : broken_core.geometry = broken_triangle_geometry := rfl
    rw [hg, broken_triangle_check_finds_one_error]
    rfl
  exact (connectivity_check_deterministic_read_only ⟨1 / 1000⟩ broken_core).2.2
    ⟨⟨triangle_cycle, []⟩, sample_surface⟩ [broken_error] broken_core hrun

end Fornjot
